import Mathlib

/-!
# mailnull: the e-mail verification pipeline

A shallow embedding of `internal/verifier/verifier.go` (the decision pipeline
`Verify`, the SMTP probe `checkSMTP`, the mock classifier `mockVerify`) and of
the data model in `internal/verifier/types.go`.

Modelling conventions.

* A Go `string` is a Lean `String` (a sequence of Unicode scalar values, i.e. a
  well-formed UTF-8 string).  `len(s)` is `String.utf8ByteSize`.
* Go `int` is the 64-bit signed integer: arithmetic that can leave the range is
  wrapped explicitly by `wrapInt`.
* `float64` scores are the decimal literals of the source, kept as rationals.
* Everything outside the process (DNS, the TCP connection, the random source,
  the clock, the `fmt.Sscanf` library routine) is a field of `World`; the
  connection is a state of an arbitrary type `σ` threaded through reads and
  writes, so the peer may answer in any way, also depending on what was sent.
-/

namespace Mailnull

/-! ## Regular expressions (the fragment used by `emailRegex`) -/

/-- Regular expressions over characters; `cls p` is a character class. -/
inductive Regex where
  | empty : Regex
  | eps : Regex
  | cls (p : Char → Bool) : Regex
  | cat (a b : Regex) : Regex
  | alt (a b : Regex) : Regex
  | star (a : Regex) : Regex

namespace Regex

/-- A single literal character. -/
def chr (c : Char) : Regex := cls (fun d => d == c)

/-- The quantifier `+`. -/
def plus (a : Regex) : Regex := cat a (star a)

/-- The quantifier `{2,}`. -/
def atLeast2 (a : Regex) : Regex := cat a (cat a (star a))

/-- Whether the expression accepts the empty string. -/
def nullable : Regex → Bool
  | empty => false
  | eps => true
  | cls _ => false
  | cat a b => nullable a && nullable b
  | alt a b => nullable a || nullable b
  | star _ => true

/-- Brzozowski derivative with respect to one character. -/
def deriv : Regex → Char → Regex
  | empty, _ => empty
  | eps, _ => empty
  | cls p, c => if p c then eps else empty
  | cat a b, c =>
    if nullable a then alt (cat (deriv a c) b) (deriv b c) else cat (deriv a c) b
  | alt a b, c => alt (deriv a c) (deriv b c)
  | star a, c => cat (deriv a c) (star a)

/-- Whole-input match of a list of characters. -/
def matchList : Regex → List Char → Bool
  | r, [] => nullable r
  | r, c :: cs => matchList (deriv r c) cs

/-- Model of `(*regexp.Regexp).MatchString` for a pattern of the form `^body$`:
without the multi-line flag `^` and `$` match only at the two ends of the text,
so the pattern matches exactly when the whole string is in the language of
`body`. -/
def MatchString (body : Regex) (s : String) : Bool := matchList body s.data

end Regex

/-- Class `a-zA-Z`. -/
def isLetter (c : Char) : Bool :=
  ('a'.toNat ≤ c.toNat && c.toNat ≤ 'z'.toNat) || ('A'.toNat ≤ c.toNat && c.toNat ≤ 'Z'.toNat)

/-- Class `0-9`. -/
def isDigit (c : Char) : Bool := '0'.toNat ≤ c.toNat && c.toNat ≤ '9'.toNat

/-- Class `[a-zA-Z0-9._%+-]`. -/
def localClass (c : Char) : Bool :=
  isLetter c || isDigit c || c == '.' || c == '_' || c == '%' || c == '+' || c == '-'

/-- Class `[a-zA-Z0-9.-]`. -/
def domainClass (c : Char) : Bool :=
  isLetter c || isDigit c || c == '.' || c == '-'

/-- Body of ``^[a-zA-Z0-9._%+-]+@[a-zA-Z0-9.-]+\.[a-zA-Z]{2,}$`` (verifier.go:17). -/
def emailRegex : Regex :=
  Regex.cat (Regex.plus (Regex.cls localClass))
    (Regex.cat (Regex.chr '@')
      (Regex.cat (Regex.plus (Regex.cls domainClass))
        (Regex.cat (Regex.chr '.') (Regex.atLeast2 (Regex.cls isLetter)))))

/-! ## `strings.Split` with a one-character separator -/

/-- Split a character list at every occurrence of `sep`. -/
def splitChars (sep : Char) : List Char → List (List Char)
  | [] => [[]]
  | c :: cs =>
    if c = sep then [] :: splitChars sep cs
    else
      match splitChars sep cs with
      | [] => [[c]]
      | p :: ps => (c :: p) :: ps

/-- Model of `strings.Split(s, sep)` for a separator of one character: the
pieces between the occurrences of `sep`, one more than there are occurrences. -/
def Split (s : String) (sep : Char) : List String :=
  (splitChars sep s.data).map String.mk

/-! ## Data model (types.go, config.go) -/

/-- The Go type `Deliverability` is a string. -/
abbrev Deliverability := String

def Deliverable : Deliverability := "DELIVERABLE"
def Undeliverable : Deliverability := "UNDELIVERABLE"
def Risky : Deliverability := "RISKY"
def Unknown : Deliverability := "UNKNOWN"

/-- The record `Result`; the defaults are Go zero values. -/
structure Result where
  Email : String := ""
  IsValidFormat : Bool := false
  IsDisposableEmail : Bool := false
  Deliverability : Deliverability := ""
  QualityScore : ℚ := 0
  Provider : String := ""
  Timestamp : Nat := 0
  Error : String := ""
  deriving DecidableEq

/-- The record `config.Config`. -/
structure Config where
  Port : String
  Mode : String
  LogLevel : String

/-- The record `net.MX`. -/
structure MX where
  Host : String
  Pref : Nat
  deriving DecidableEq

/-- The table `disposableDomains` (verifier.go:19-23). -/
def disposableDomains : List (String × Bool) :=
  [("mailinator.com", true), ("guerrillamail.com", true), ("temp-mail.org", true)]

/-- Go map indexing `m[k]` on a `map[string]bool`: the zero value `false` for
an absent key. -/
def mapIndex (m : List (String × Bool)) (k : String) : Bool :=
  match m.lookup k with
  | some b => b
  | none => false

/-! ## The outside world -/

/-- Everything `Verify` obtains from outside the process.  `σ` is the state of
one TCP connection together with its buffered reader. -/
structure World (σ : Type) where
  /-- Go `time.Now()`. -/
  Now : Nat
  /-- Go `net.LookupMX(domain)`: the records and whether `err != nil` (the library
  may return both records and an error). -/
  LookupMX : String → List MX × Bool
  /-- Go `net.DialTimeout("tcp", target, 5*time.Second)`: `none` when `err != nil`. -/
  DialTimeout : String → Option σ
  /-- Go `fmt.Fprintf(conn, ...)` with the text written: whether `err != nil`, and
  the connection afterwards. -/
  Write : σ → String → Bool × σ
  /-- Go `reader.ReadLine()`: `none` when `err != nil`, and the connection
  afterwards. -/
  ReadLine : σ → Option String × σ
  /-- Go `fmt.Sscanf(line, "%d", &code)`: the integer stored, `none` when nothing
  is stored (the scan failed). -/
  Sscanf : String → Option Int
  /-- Go `rand.Intn(n)`. -/
  Intn : Nat → Nat

/-! ## Go `int` -/

/-- Wrap an integer into the signed 64-bit range. -/
def wrapInt (x : Int) : Int := (x + 2 ^ 63) % 2 ^ 64 - 2 ^ 63

/-! ## The SMTP client (verifier.go:181-225) -/

section Client

variable {σ : Type}

set_option linter.unusedVariables false in
/-- Method `SMTPClient.ReadCodeLine`: the line and whether `err != nil`. -/
def ReadCodeLine (w : World σ) (c : σ) (expectCode : Int) : (String × Bool) × σ :=
  match w.ReadLine c with
  | (none, c1) => (("", true), c1)
  | (some line, c1) =>
    if line.utf8ByteSize < 3 then ((line, true), c1) else ((line, false), c1)

/-- Method `SMTPClient.SendCommand`: whether `err != nil`. -/
def SendCommand (w : World σ) (c : σ) (cmd : String) : Bool × σ :=
  match w.Write c (cmd ++ "\r\n") with
  | (true, c1) => (true, c1)
  | (false, c1) =>
    match w.ReadLine c1 with
    | (none, c2) => (true, c2)
    | (some _, c2) => (false, c2)

/-- Method `SMTPClient.SendRecpt`: the code and whether `err != nil`.  `var code int`
starts at 0 and the error of `Sscanf` is ignored. -/
def SendRecpt (w : World σ) (c : σ) (cmd : String) : (Int × Bool) × σ :=
  match w.Write c (cmd ++ "\r\n") with
  | (true, c1) => ((0, true), c1)
  | (false, c1) =>
    match w.ReadLine c1 with
    | (none, c2) => ((0, true), c2)
    | (some line, c2) =>
      match w.Sscanf line with
      | some code => ((code, false), c2)
      | none => ((0, false), c2)

/-- The text of the catch-all command sent by `isCatchAll`. -/
def catchAllCommand (w : World σ) (domain : String) : String :=
  let randomUser := "chk_" ++ toString (w.Intn 100000)
  "RCPT TO:<" ++ randomUser ++ "@" ++ domain ++ ">"

/-- Method `Verifier.isCatchAll` (verifier.go:151-158). -/
def isCatchAll (w : World σ) (client : σ) (domain : String) : Bool :=
  match SendRecpt w client (catchAllCommand w domain) with
  | ((_, true), _) => false
  | ((code, false), _) => code == 250

/-- Method `Verifier.checkSMTP` (verifier.go:105-149).  `mxRecords[0]` needs a
non-empty slice; the caller supplies the evidence. -/
def checkSMTP (w : World σ) (domain : String) (mxRecords : List MX)
    (hmx : mxRecords ≠ []) (email : String) : Bool × Bool :=
  let target := (mxRecords.head hmx).Host ++ ":25"
  match w.DialTimeout target with
  | none => (false, true)
  | some conn =>
    match ReadCodeLine w conn 220 with
    | ((_, true), _) => (false, true)
    | ((_, false), c1) =>
      let (err, c2) := SendCommand w c1 "EHLO mailnull.com"
      let (err, c2) := if err then SendCommand w c2 "HELO mailnull.com" else (false, c2)
      if err then (false, true)
      else
        let (err, c3) := SendCommand w c2 "MAIL FROM:<verify@mailnull.com>"
        if err then (false, true)
        else
          let ((code, err), c4) := SendRecpt w c3 ("RCPT TO:<" ++ email ++ ">")
          if err then (false, true)
          else if code = 250 then
            if isCatchAll w c4 domain then (true, true) else (true, false)
          else if code ≥ 500 ∧ code < 600 then (false, false)
          else (false, true)

end Client

/-! ## The decision pipeline (verifier.go:38-103, 160-179) -/

/-- Method `Verifier.mockVerify`: `h` accumulates the code points in a Go `int`, and
`%` is the truncated remainder. -/
def mockVerify (res : Result) : Result :=
  let h := res.Email.data.foldl (fun (h : Int) c => wrapInt (h + (c.toNat : Int))) 0
  let r := Int.tmod h 100
  if r < 10 then { res with Deliverability := Undeliverable, QualityScore := 0.1 }
  else if r < 30 then { res with Deliverability := Risky, QualityScore := 0.5 }
  else { res with Deliverability := Deliverable, QualityScore := 0.95 }

/-- Method `Verifier.Verify`. -/
def Verify {σ : Type} (cfg : Config) (w : World σ) (email : String) : Result :=
  let res : Result := { Email := email, Timestamp := w.Now, Provider := "unknown" }
  if !Regex.MatchString emailRegex email then
    { res with Deliverability := Undeliverable, QualityScore := 0.0 }
  else
    let res := { res with IsValidFormat := true }
    match Split email '@' with
    | [_, domain] =>
      let res := { res with Provider := domain }
      if mapIndex disposableDomains domain then
        { res with IsDisposableEmail := true, Deliverability := Risky, QualityScore := 0.4 }
      else if cfg.Mode = "MOCK" then mockVerify res
      else
        let mx := w.LookupMX domain
        if hmx : mx.2 = true ∨ mx.1.length = 0 then
          { res with Deliverability := Undeliverable, QualityScore := 0.0 }
        else if cfg.Mode = "LITE" then
          { res with Deliverability := Deliverable, QualityScore := 0.7 }
        else
          match checkSMTP w domain mx.1 (fun h => hmx (Or.inr (by rw [h]; rfl))) email with
          | (true, true) =>
            { res with Deliverability := Risky, QualityScore := 0.5,
                       Error := "Catch-all domain detected" }
          | (true, false) => { res with Deliverability := Deliverable, QualityScore := 0.9 }
          | (false, true) =>
            { res with Deliverability := Risky, QualityScore := 0.5,
                       Error := "Verification failed due to network/timeout" }
          | (false, false) => { res with Deliverability := Undeliverable, QualityScore := 0.1 }
    | _ => { res with Deliverability := Undeliverable }

/-! ## Notions used to state the properties -/

/-- The text after the first `@` of a string (empty when there is none). -/
def domainPart (s : String) : String :=
  String.mk ((s.data.dropWhile (fun c => c != '@')).drop 1)

/-- The table `space` of Go's `fmt` package. -/
def isSpace (c : Char) : Bool :=
  let r := c.toNat
  (0x09 ≤ r && r ≤ 0x0d) || r == 0x20 || r == 0x85 || r == 0xa0 || r == 0x1680 ||
    (0x2000 ≤ r && r ≤ 0x200a) || r == 0x2028 || r == 0x2029 || r == 0x202f ||
    r == 0x205f || r == 0x3000

/-- Leading blanks are skipped; a newline is an error. -/
def skipSpace : List Char → Option (List Char)
  | [] => some []
  | c :: cs =>
    if c.toNat = 10 then none else if isSpace c then skipSpace cs else some (c :: cs)

/-- A model of `fmt.Sscanf(line, "%d", &code)`: blanks, an optional sign, then
the longest run of decimal digits, which must be non-empty and parse as a
base-10 `int64`; the scan stops at the first other character (an underscore
included) and stores the digits read so far. -/
def scanDecimal (line : String) : Option Int :=
  match skipSpace line.data with
  | none => none
  | some cs =>
    let signed : Bool × List Char :=
      match cs with
      | '-' :: rest => (true, rest)
      | '+' :: rest => (false, rest)
      | _ => (false, cs)
    let tok := signed.2.takeWhile isDigit
    if tok.isEmpty then none
    else
      let n : Int := tok.foldl (fun acc c => 10 * acc + ((c.toNat - '0'.toNat : Nat) : Int)) 0
      let v : Int := if signed.1 then -n else n
      if -(2 ^ 63) ≤ v ∧ v < 2 ^ 63 then some v else none

/-- A world whose DNS answers `(mx, mxErr)` for every domain and whose dial
gives a connection that will read `script` (`none` when the dial fails). -/
def sampleWorld (mx : List MX) (mxErr : Bool) (script : Option (List (Option String))) :
    World (List (Option String)) where
  Now := 0
  LookupMX := fun _ => (mx, mxErr)
  DialTimeout := fun _ => script
  Write := fun c _ => (false, c)
  ReadLine := fun c =>
    match c with
    | [] => (none, [])
    | l :: ls => (l, ls)
  Sscanf := scanDecimal
  Intn := fun _ => 4242

/-- One mail exchanger. -/
def sampleMX : List MX := [{ Host := "mx.example.net", Pref := 10 }]

/-- A configuration with the given mode. -/
def sampleConfig (mode : String) : Config := { Port := "8080", Mode := mode, LogLevel := "INFO" }

/-- A peer that greets, answers the three commands, accepts the recipient and
rejects the random recipient. -/
def acceptingScript : List (Option String) :=
  [some "220 mx.example.net ESMTP", some "250 hello", some "250 sender ok",
   some "250 recipient ok", some "550 no such user"]

/-- The same peer, but its opening line carries the code 554. -/
def refusingGreetingScript : List (Option String) :=
  [some "554 no SMTP service here", some "250 hello", some "250 sender ok",
   some "250 recipient ok", some "550 no such user"]

/-! # Theorems -/

namespace Regex

theorem matchList_empty (s : List Char) : matchList empty s = false := by
  induction s with
  | nil => rfl
  | cons c cs ih => simpa [matchList, deriv] using ih

theorem matchList_alt (a b : Regex) (s : List Char) :
    matchList (alt a b) s = (matchList a s || matchList b s) := by
  induction s generalizing a b with
  | nil => rfl
  | cons c cs ih => simp [matchList, deriv, ih]

theorem matchList_eps (s : List Char) : matchList eps s = true ↔ s = [] := by
  cases s with
  | nil => simp [matchList, nullable]
  | cons c cs => simp [matchList, deriv, matchList_empty]

theorem matchList_cls (p : Char → Bool) (s : List Char) :
    matchList (cls p) s = true ↔ ∃ c, s = [c] ∧ p c = true := by
  cases s with
  | nil => simp [matchList, nullable]
  | cons c cs =>
    by_cases h : p c = true
    · have h1 : matchList (cls p) (c :: cs) = matchList eps cs := by
        simp [matchList, deriv, h]
      rw [h1, matchList_eps]
      constructor
      · rintro rfl
        exact ⟨c, rfl, h⟩
      · rintro ⟨d, hd, _⟩
        simp only [List.cons.injEq] at hd
        exact hd.2
    · have h1 : matchList (cls p) (c :: cs) = matchList empty cs := by
        simp [matchList, deriv, h]
      rw [h1, matchList_empty]
      constructor
      · intro hf
        exact absurd hf (by simp)
      · rintro ⟨d, hd, hp⟩
        simp only [List.cons.injEq] at hd
        rw [← hd.1] at hp
        exact absurd hp h

theorem matchList_cat (a b : Regex) (s : List Char) :
    matchList (cat a b) s = true ↔
      ∃ u v, s = u ++ v ∧ matchList a u = true ∧ matchList b v = true := by
  induction s generalizing a with
  | nil =>
    constructor
    · intro h
      simp only [matchList, nullable, Bool.and_eq_true] at h
      exact ⟨[], [], rfl, h.1, h.2⟩
    · rintro ⟨u, v, huv, hu, hv⟩
      have hu0 : u = [] := (List.append_eq_nil.mp huv.symm).1
      have hv0 : v = [] := (List.append_eq_nil.mp huv.symm).2
      subst hu0
      subst hv0
      simp only [matchList, nullable, Bool.and_eq_true]
      exact ⟨hu, hv⟩
  | cons c cs ih =>
    have key : (∃ u v, c :: cs = u ++ v ∧ matchList a u = true ∧ matchList b v = true) ↔
        ((nullable a = true ∧ matchList (deriv b c) cs = true) ∨
          ∃ u v, cs = u ++ v ∧ matchList (deriv a c) u = true ∧ matchList b v = true) := by
      constructor
      · rintro ⟨u, v, huv, hu, hv⟩
        cases u with
        | nil =>
          left
          simp only [List.nil_append] at huv
          subst huv
          exact ⟨hu, hv⟩
        | cons d u =>
          right
          simp only [List.cons_append, List.cons.injEq] at huv
          obtain ⟨rfl, rfl⟩ := huv
          exact ⟨u, v, rfl, hu, hv⟩
      · rintro (⟨hn, hb⟩ | ⟨u, v, rfl, hu, hv⟩)
        · exact ⟨[], c :: cs, rfl, hn, hb⟩
        · exact ⟨c :: u, v, rfl, hu, hv⟩
    rw [key]
    by_cases hn : nullable a = true
    · have h1 : matchList (cat a b) (c :: cs)
          = (matchList (cat (deriv a c) b) cs || matchList (deriv b c) cs) := by
        simp [matchList, deriv, hn, matchList_alt]
      rw [h1, Bool.or_eq_true, ih (deriv a c)]
      constructor
      · rintro (h | h)
        · exact Or.inr h
        · exact Or.inl ⟨hn, h⟩
      · rintro (h | h)
        · exact Or.inr h.2
        · exact Or.inl h
    · have h1 : matchList (cat a b) (c :: cs) = matchList (cat (deriv a c) b) cs := by
        simp [matchList, deriv, hn]
      rw [h1, ih (deriv a c)]
      constructor
      · intro h
        exact Or.inr h
      · rintro (h | h)
        · exact absurd h.1 hn
        · exact h

theorem matchList_star_cls (p : Char → Bool) (s : List Char) :
    matchList (star (cls p)) s = true ↔ ∀ c ∈ s, p c = true := by
  induction s with
  | nil => simp [matchList, nullable]
  | cons c cs ih =>
    have h1 : matchList (star (cls p)) (c :: cs)
        = matchList (cat (if p c then eps else empty) (star (cls p))) cs := rfl
    rw [h1, matchList_cat]
    by_cases h : p c = true
    · simp only [h, if_true, matchList_eps, List.mem_cons, forall_eq_or_imp, true_and]
      constructor
      · rintro ⟨u, v, rfl, rfl, hv⟩
        exact ih.mp hv
      · intro hall
        exact ⟨[], cs, rfl, rfl, ih.mpr hall⟩
    · simp [h, matchList_empty]

theorem matchList_plus_cls (p : Char → Bool) (s : List Char) :
    matchList (plus (cls p)) s = true ↔ s ≠ [] ∧ ∀ c ∈ s, p c = true := by
  unfold plus
  rw [matchList_cat]
  constructor
  · rintro ⟨u, v, rfl, hu, hv⟩
    obtain ⟨c, rfl, hc⟩ := (matchList_cls p u).mp hu
    refine ⟨by simp, ?_⟩
    intro d hd
    simp only [List.singleton_append, List.mem_cons] at hd
    rcases hd with rfl | hd
    · exact hc
    · exact (matchList_star_cls p v).mp hv d hd
  · rintro ⟨hne, hall⟩
    cases s with
    | nil => exact absurd rfl hne
    | cons c cs =>
      refine ⟨[c], cs, rfl, (matchList_cls p [c]).mpr ⟨c, rfl, hall c (by simp)⟩, ?_⟩
      exact (matchList_star_cls p cs).mpr (fun d hd => hall d (by simp [hd]))

theorem matchList_atLeast2_cls (p : Char → Bool) (s : List Char) :
    matchList (atLeast2 (cls p)) s = true ↔ 2 ≤ s.length ∧ ∀ c ∈ s, p c = true := by
  unfold atLeast2
  rw [matchList_cat]
  constructor
  · rintro ⟨u, v, rfl, hu, hv⟩
    obtain ⟨c, rfl, hc⟩ := (matchList_cls p u).mp hu
    obtain ⟨hne, hall⟩ := (matchList_plus_cls p v).mp hv
    refine ⟨?_, ?_⟩
    · cases v with
      | nil => exact absurd rfl hne
      | cons d v => simp
    · intro d hd
      simp only [List.singleton_append, List.mem_cons] at hd
      rcases hd with rfl | hd
      · exact hc
      · exact hall d hd
  · rintro ⟨hlen, hall⟩
    cases s with
    | nil => simp at hlen
    | cons c cs =>
      refine ⟨[c], cs, rfl, (matchList_cls p [c]).mpr ⟨c, rfl, hall c (by simp)⟩, ?_⟩
      refine (matchList_plus_cls p cs).mpr ⟨?_, fun d hd => hall d (by simp [hd])⟩
      rintro rfl
      simp at hlen

theorem matchList_chr (c : Char) (s : List Char) : matchList (chr c) s = true ↔ s = [c] := by
  unfold chr
  rw [matchList_cls]
  constructor
  · rintro ⟨d, rfl, hd⟩
    simp only [beq_iff_eq] at hd
    rw [hd]
  · rintro rfl
    exact ⟨c, rfl, by simp⟩

end Regex

/-- Shape of the strings accepted by `emailRegex`. -/
theorem emailRegex_iff (s : List Char) :
    Regex.matchList emailRegex s = true ↔
      ∃ l d t, s = l ++ '@' :: (d ++ '.' :: t) ∧
        (l ≠ [] ∧ ∀ c ∈ l, localClass c = true) ∧
        (d ≠ [] ∧ ∀ c ∈ d, domainClass c = true) ∧
        (2 ≤ t.length ∧ ∀ c ∈ t, isLetter c = true) := by
  unfold emailRegex
  simp only [Regex.matchList_cat, Regex.matchList_plus_cls, Regex.matchList_chr,
    Regex.matchList_atLeast2_cls]
  constructor
  · rintro ⟨l, r1, rfl, hl, a, r2, rfl, rfl, d, r3, rfl, hd, b, t, rfl, rfl, ht⟩
    exact ⟨l, d, t, by simp, hl, hd, ht⟩
  · rintro ⟨l, d, t, rfl, hl, hd, ht⟩
    exact ⟨l, _, rfl, hl, ['@'], _, rfl, rfl, d, _, rfl, hd, ['.'], t, rfl, rfl, ht⟩

theorem splitChars_of_not_mem (sep : Char) (s : List Char) (h : sep ∉ s) :
    splitChars sep s = [s] := by
  induction s with
  | nil => rfl
  | cons c cs ih =>
    simp only [List.mem_cons, not_or] at h
    have hc : ¬ c = sep := fun e => h.1 e.symm
    simp [splitChars, hc, ih h.2]

theorem splitChars_append (sep : Char) (l r : List Char) (h : sep ∉ l) :
    splitChars sep (l ++ sep :: r) = l :: splitChars sep r := by
  induction l with
  | nil => simp [splitChars]
  | cons c cs ih =>
    simp only [List.mem_cons, not_or] at h
    have hc : ¬ c = sep := fun e => h.1 e.symm
    simp [splitChars, hc, ih h.2]

theorem dropWhile_append_at (l r : List Char) (h : '@' ∉ l) :
    (l ++ '@' :: r).dropWhile (fun c => c != '@') = '@' :: r := by
  induction l with
  | nil => simp [List.dropWhile]
  | cons c cs ih =>
    simp only [List.mem_cons, not_or] at h
    have hc : (c != '@') = true := by
      simp only [bne_iff_ne, ne_eq]
      exact fun e => h.1 e.symm
    simp [List.dropWhile, hc, ih h.2]

/-- A string accepted by `emailRegex` is `l ++ "@" ++ dom` with no `@` in `l`
or in `dom`. -/
theorem valid_shape (email : String) (h : Regex.MatchString emailRegex email = true) :
    ∃ l dom, email.data = l ++ '@' :: dom ∧ '@' ∉ l ∧ '@' ∉ dom := by
  obtain ⟨l, d, t, hs, ⟨_, hl⟩, ⟨_, hd⟩, ⟨_, ht⟩⟩ := (emailRegex_iff email.data).mp h
  refine ⟨l, d ++ '.' :: t, hs, ?_, ?_⟩
  · intro hm
    exact absurd (hl _ hm) (by decide)
  · intro hm
    simp only [List.mem_append, List.mem_cons] at hm
    rcases hm with hm | hm | hm
    · exact absurd (hd _ hm) (by decide)
    · exact absurd hm (by decide)
    · exact absurd (ht _ hm) (by decide)

theorem valid_split (email : String) (h : Regex.MatchString emailRegex email = true) :
    ∃ l, '@' ∉ l ∧ email.data.count '@' = 1 ∧
      Split email '@' = [String.mk l, domainPart email] := by
  obtain ⟨l, dom, hs, hl, hdom⟩ := valid_shape email h
  refine ⟨l, hl, ?_, ?_⟩
  · rw [hs, List.count_append, List.count_cons_self, List.count_eq_zero_of_not_mem hl,
      List.count_eq_zero_of_not_mem hdom]
  · unfold Split domainPart
    rw [hs, splitChars_append _ _ _ hl, splitChars_of_not_mem _ _ hdom,
      dropWhile_append_at _ _ hl]
    rfl

/-! ## Reductions of `Verify` on accepted addresses -/

theorem Verify_live_eq {σ : Type} (cfg : Config) (w : World σ) (email : String)
    (hmock : cfg.Mode ≠ "MOCK") (hlite : cfg.Mode ≠ "LITE")
    (h : Regex.MatchString emailRegex email = true)
    (hd : mapIndex disposableDomains (domainPart email) = false)
    (herr : (w.LookupMX (domainPart email)).2 = false)
    (hne : (w.LookupMX (domainPart email)).1 ≠ []) :
    Verify cfg w email =
      match checkSMTP w (domainPart email) (w.LookupMX (domainPart email)).1 hne email with
      | (true, true) =>
        { Email := email, Timestamp := w.Now, Provider := domainPart email,
          IsValidFormat := true, Deliverability := Risky, QualityScore := 0.5,
          Error := "Catch-all domain detected" }
      | (true, false) =>
        { Email := email, Timestamp := w.Now, Provider := domainPart email,
          IsValidFormat := true, Deliverability := Deliverable, QualityScore := 0.9 }
      | (false, true) =>
        { Email := email, Timestamp := w.Now, Provider := domainPart email,
          IsValidFormat := true, Deliverability := Risky, QualityScore := 0.5,
          Error := "Verification failed due to network/timeout" }
      | (false, false) =>
        { Email := email, Timestamp := w.Now, Provider := domainPart email,
          IsValidFormat := true, Deliverability := Undeliverable, QualityScore := 0.1 } := by
  obtain ⟨l, _, _, hsplit⟩ := valid_split email h
  have hc : ¬ ((w.LookupMX (domainPart email)).2 = true ∨
      (w.LookupMX (domainPart email)).1.length = 0) := by
    rintro (h1 | h1)
    · rw [herr] at h1
      exact absurd h1 (by decide)
    · exact hne (List.length_eq_zero.mp h1)
  unfold Verify
  simp only [h, hsplit, hd, hmock, hlite, hc, Bool.not_true, Bool.false_eq_true, if_false,
    dite_false]

/-! ## The mock classifier -/

/-- C1: a string rejected by the syntax pattern is classified UNDELIVERABLE with
score 0.0, `is_valid_format = false` and provider "unknown", for every
configuration (operating mode) and every world (DNS and SMTP answers). -/
theorem verify_invalid_syntax {σ : Type} (cfg : Config) (w : World σ) (email : String)
    (h : Regex.MatchString emailRegex email = false) :
    (Verify cfg w email).Deliverability = Undeliverable ∧
      (Verify cfg w email).QualityScore = 0.0 ∧
      (Verify cfg w email).IsValidFormat = false ∧
      (Verify cfg w email).Provider = "unknown" := by
  unfold Verify
  simp [h]

/-- The hypothesis of C1 holds at "not-an-email". -/
theorem verify_invalid_syntax_witness :
    Regex.MatchString emailRegex "not-an-email" = false ∧
      (Verify (sampleConfig "LIVE") (sampleWorld sampleMX false none)
          "not-an-email").Deliverability = Undeliverable ∧
      (Verify (sampleConfig "LIVE") (sampleWorld sampleMX false none)
          "not-an-email").QualityScore = 0.0 ∧
      (Verify (sampleConfig "LIVE") (sampleWorld sampleMX false none)
          "not-an-email").IsValidFormat = false ∧
      (Verify (sampleConfig "LIVE") (sampleWorld sampleMX false none)
          "not-an-email").Provider = "unknown" :=
  ⟨by decide, verify_invalid_syntax _ _ _ (by decide)⟩

/-- C2: an address accepted by the syntax pattern whose domain (the text after
the `@`) is in the disposable-domain table is classified RISKY with score 0.4
and `is_disposable_email = true`, for every mode string and every world. -/
theorem verify_disposable {σ : Type} (cfg : Config) (w : World σ) (email : String)
    (h : Regex.MatchString emailRegex email = true)
    (hd : mapIndex disposableDomains (domainPart email) = true) :
    (Verify cfg w email).Deliverability = Risky ∧
      (Verify cfg w email).QualityScore = 0.4 ∧
      (Verify cfg w email).IsDisposableEmail = true := by
  obtain ⟨l, _, _, hsplit⟩ := valid_split email h
  unfold Verify
  simp [h, hsplit, hd]

/-- The hypotheses of C2 hold at "x@mailinator.com". -/
theorem verify_disposable_witness :
    Regex.MatchString emailRegex "x@mailinator.com" = true ∧
      mapIndex disposableDomains (domainPart "x@mailinator.com") = true ∧
      (Verify (sampleConfig "LITE") (sampleWorld sampleMX false none)
          "x@mailinator.com").Deliverability = Risky ∧
      (Verify (sampleConfig "LITE") (sampleWorld sampleMX false none)
          "x@mailinator.com").QualityScore = 0.4 ∧
      (Verify (sampleConfig "LITE") (sampleWorld sampleMX false none)
          "x@mailinator.com").IsDisposableEmail = true :=
  ⟨by decide, by decide, verify_disposable _ _ _ (by decide) (by decide)⟩

/-- C3, as stated, fails: in LIVE mode, for the accepted, non-disposable address
`a@b.com` whose lookup returns one MX record together with an error, the probe
of that record would return (true, false), yet the result is UNDELIVERABLE/0.0
and not the matrix row DELIVERABLE/0.9. -/
theorem live_lookup_error_counterexample :
    (sampleConfig "LIVE").Mode = "LIVE" ∧
    Regex.MatchString emailRegex "a@b.com" = true ∧
    mapIndex disposableDomains (domainPart "a@b.com") = false ∧
    ((sampleWorld sampleMX true (some acceptingScript)).LookupMX
        (domainPart "a@b.com")).1.length = 1 ∧
    ((sampleWorld sampleMX true (some acceptingScript)).LookupMX
        (domainPart "a@b.com")).2 = true ∧
    checkSMTP (sampleWorld sampleMX true (some acceptingScript)) (domainPart "a@b.com")
        sampleMX (by decide) "a@b.com" = (true, false) ∧
    (Verify (sampleConfig "LIVE") (sampleWorld sampleMX true (some acceptingScript))
        "a@b.com").Deliverability = Undeliverable ∧
    (Verify (sampleConfig "LIVE") (sampleWorld sampleMX true (some acceptingScript))
        "a@b.com").Deliverability ≠ Deliverable ∧
    (Verify (sampleConfig "LIVE") (sampleWorld sampleMX true (some acceptingScript))
        "a@b.com").QualityScore = 0.0 := by
  refine ⟨rfl, by decide, by decide, rfl, rfl, by decide, by decide, by decide, rfl⟩

/-- C3, amended: in LIVE mode, for an accepted, non-disposable address whose MX
lookup succeeds (no error) with at least one record, the result follows the
classification matrix of the pair returned by the probe. -/
theorem verify_live_matrix {σ : Type} (cfg : Config) (w : World σ) (email : String)
    (hmode : cfg.Mode = "LIVE")
    (h : Regex.MatchString emailRegex email = true)
    (hd : mapIndex disposableDomains (domainPart email) = false)
    (herr : (w.LookupMX (domainPart email)).2 = false)
    (hne : (w.LookupMX (domainPart email)).1 ≠ []) :
    (checkSMTP w (domainPart email) (w.LookupMX (domainPart email)).1 hne email = (true, true) →
        (Verify cfg w email).Deliverability = Risky ∧
        (Verify cfg w email).QualityScore = 0.5 ∧
        (Verify cfg w email).Error = "Catch-all domain detected") ∧
    (checkSMTP w (domainPart email) (w.LookupMX (domainPart email)).1 hne email = (true, false) →
        (Verify cfg w email).Deliverability = Deliverable ∧
        (Verify cfg w email).QualityScore = 0.9 ∧
        (Verify cfg w email).Error = "") ∧
    (checkSMTP w (domainPart email) (w.LookupMX (domainPart email)).1 hne email = (false, true) →
        (Verify cfg w email).Deliverability = Risky ∧
        (Verify cfg w email).QualityScore = 0.5 ∧
        (Verify cfg w email).Error = "Verification failed due to network/timeout") ∧
    (checkSMTP w (domainPart email) (w.LookupMX (domainPart email)).1 hne email = (false, false) →
        (Verify cfg w email).Deliverability = Undeliverable ∧
        (Verify cfg w email).QualityScore = 0.1 ∧
        (Verify cfg w email).Error = "") := by
  have hmock : cfg.Mode ≠ "MOCK" := by
    rw [hmode]
    decide
  have hlite : cfg.Mode ≠ "LITE" := by
    rw [hmode]
    decide
  rw [Verify_live_eq cfg w email hmock hlite h hd herr hne]
  refine ⟨?_, ?_, ?_, ?_⟩ <;> intro hp <;> rw [hp] <;> exact ⟨rfl, rfl, rfl⟩

/-- The hypotheses of the amended C3 hold for "a@b.com" and a peer that accepts the recipient
and rejects the random one: DELIVERABLE/0.9 with no error text. -/
theorem verify_live_matrix_witness :
    (Verify (sampleConfig "LIVE") (sampleWorld sampleMX false (some acceptingScript))
        "a@b.com").Deliverability = Deliverable ∧
    (Verify (sampleConfig "LIVE") (sampleWorld sampleMX false (some acceptingScript))
        "a@b.com").QualityScore = 0.9 ∧
    (Verify (sampleConfig "LIVE") (sampleWorld sampleMX false (some acceptingScript))
        "a@b.com").Error = "" :=
  (verify_live_matrix (sampleConfig "LIVE") (sampleWorld sampleMX false (some acceptingScript))
    "a@b.com" rfl (by decide) (by decide) rfl (by decide)).2.1 (by decide)

/-- C7: the pair (deliverability, quality score) of every result is one of the
seven pairs set by the branches; the deliverability is never the unset (empty)
value or UNKNOWN, and the score lies in [0, 1]. -/
theorem verify_pair_enumerated {σ : Type} (cfg : Config) (w : World σ) (email : String) :
    ((Verify cfg w email).Deliverability, (Verify cfg w email).QualityScore) ∈
        [(Undeliverable, (0.0 : ℚ)), (Undeliverable, 0.1), (Risky, 0.4), (Risky, 0.5),
         (Deliverable, 0.7), (Deliverable, 0.9), (Deliverable, 0.95)] ∧
      (Verify cfg w email).Deliverability ≠ "" ∧
      (Verify cfg w email).Deliverability ≠ Unknown ∧
      0 ≤ (Verify cfg w email).QualityScore ∧ (Verify cfg w email).QualityScore ≤ 1 := by
  have hmem : ((Verify cfg w email).Deliverability, (Verify cfg w email).QualityScore) ∈
        [(Undeliverable, (0.0 : ℚ)), (Undeliverable, 0.1), (Risky, 0.4), (Risky, 0.5),
         (Deliverable, 0.7), (Deliverable, 0.9), (Deliverable, 0.95)] := by
    unfold Verify mockVerify
    simp only []
    repeat' split
    all_goals norm_num
  refine ⟨hmem, ?_⟩
  generalize (Verify cfg w email).Deliverability = d at hmem
  generalize (Verify cfg w email).QualityScore = q at hmem
  simp only [List.mem_cons, Prod.mk.injEq, List.mem_singleton, List.not_mem_nil, or_false] at hmem
  rcases hmem with ⟨rfl, rfl⟩ | ⟨rfl, rfl⟩ | ⟨rfl, rfl⟩ | ⟨rfl, rfl⟩ | ⟨rfl, rfl⟩ | ⟨rfl, rfl⟩ |
    ⟨rfl, rfl⟩
  all_goals refine ⟨by decide, by decide, by norm_num, by norm_num⟩

/-! ## The SMTP probe -/

/-- Once the hand-shake has reached the state `c3` in which the primary
`RCPT TO` is sent, the probe is the classification of that exchange. -/
theorem checkSMTP_reached {σ : Type} (w : World σ) (domain : String) (mxRecords : List MX)
    (hmx : mxRecords ≠ []) (email : String) (conn c1 c2 c3 : σ) (greeting : String)
    (hdial : w.DialTimeout ((mxRecords.head hmx).Host ++ ":25") = some conn)
    (hgreet : ReadCodeLine w conn 220 = ((greeting, false), c1))
    (hhello : SendCommand w c1 "EHLO mailnull.com" = (false, c2) ∨
      ∃ c, SendCommand w c1 "EHLO mailnull.com" = (true, c) ∧
        SendCommand w c "HELO mailnull.com" = (false, c2))
    (hmail : SendCommand w c2 "MAIL FROM:<verify@mailnull.com>" = (false, c3)) :
    checkSMTP w domain mxRecords hmx email =
      if (SendRecpt w c3 ("RCPT TO:<" ++ email ++ ">")).1.2 = true then (false, true)
      else if (SendRecpt w c3 ("RCPT TO:<" ++ email ++ ">")).1.1 = 250 then
        if isCatchAll w (SendRecpt w c3 ("RCPT TO:<" ++ email ++ ">")).2 domain = true
        then (true, true) else (true, false)
      else if (SendRecpt w c3 ("RCPT TO:<" ++ email ++ ">")).1.1 ≥ 500 ∧
          (SendRecpt w c3 ("RCPT TO:<" ++ email ++ ">")).1.1 < 600 then (false, false)
      else (false, true) := by
  unfold checkSMTP
  simp only [hdial, hgreet]
  rcases hhello with h1 | ⟨c, h1, h2⟩
  · simp only [h1, Bool.false_eq_true, if_false, hmail]
  · simp only [h1, if_true, h2, Bool.false_eq_true, if_false, hmail]

theorem isCatchAll_eq {σ : Type} (w : World σ) (c : σ) (domain : String) :
    isCatchAll w c domain = true ↔
      (SendRecpt w c (catchAllCommand w domain)).1 = (250, false) := by
  unfold isCatchAll
  rcases hr : SendRecpt w c (catchAllCommand w domain) with ⟨⟨code, err⟩, c5⟩
  cases err <;> simp

/-- Each of the four pairs of the classification matrix is returned by the probe
for some peer. -/
theorem checkSMTP_pairs_reachable :
    checkSMTP (sampleWorld sampleMX false
        (some [some "220 hi", some "250 a", some "250 b", some "250 c", some "250 d"]))
        "b.com" sampleMX (by decide) "a@b.com" = (true, true) ∧
      checkSMTP (sampleWorld sampleMX false (some acceptingScript))
        "b.com" sampleMX (by decide) "a@b.com" = (true, false) ∧
      checkSMTP (sampleWorld sampleMX false none)
        "b.com" sampleMX (by decide) "a@b.com" = (false, true) ∧
      checkSMTP (sampleWorld sampleMX false
        (some [some "220 hi", some "250 a", some "250 b", some "550 no such user"]))
        "b.com" sampleMX (by decide) "a@b.com" = (false, false) := by
  refine ⟨by decide, by decide, by decide, by decide⟩

/-- C6: once the probe has reached the primary `RCPT TO` exchange (dial,
greeting, hello and `MAIL FROM` succeeded, leaving the connection in `c3`), its
result is decided by that exchange: an error gives (false, true); code 250
gives (true, true) when the second `RCPT TO` also yields 250 and (true, false)
otherwise; a code in [500, 599] gives (false, false); any other code gives
(false, true).  A failed write or read is an error, and the code of a line is
what `Sscanf` stores, 0 for a line it cannot parse. -/
theorem probe_rcpt_outcome {σ : Type} (w : World σ) (domain : String) (mxRecords : List MX)
    (hmx : mxRecords ≠ []) (email : String) (conn c1 c2 c3 : σ) (greeting : String)
    (hdial : w.DialTimeout ((mxRecords.head hmx).Host ++ ":25") = some conn)
    (hgreet : ReadCodeLine w conn 220 = ((greeting, false), c1))
    (hhello : SendCommand w c1 "EHLO mailnull.com" = (false, c2) ∨
      ∃ c, SendCommand w c1 "EHLO mailnull.com" = (true, c) ∧
        SendCommand w c "HELO mailnull.com" = (false, c2))
    (hmail : SendCommand w c2 "MAIL FROM:<verify@mailnull.com>" = (false, c3)) :
    (∀ code c4, SendRecpt w c3 ("RCPT TO:<" ++ email ++ ">") = ((code, true), c4) →
        checkSMTP w domain mxRecords hmx email = (false, true)) ∧
    (∀ c4, SendRecpt w c3 ("RCPT TO:<" ++ email ++ ">") = ((250, false), c4) →
        (SendRecpt w c4 (catchAllCommand w domain)).1 = (250, false) →
        checkSMTP w domain mxRecords hmx email = (true, true)) ∧
    (∀ c4, SendRecpt w c3 ("RCPT TO:<" ++ email ++ ">") = ((250, false), c4) →
        (SendRecpt w c4 (catchAllCommand w domain)).1 ≠ (250, false) →
        checkSMTP w domain mxRecords hmx email = (true, false)) ∧
    (∀ code c4, SendRecpt w c3 ("RCPT TO:<" ++ email ++ ">") = ((code, false), c4) →
        500 ≤ code → code ≤ 599 →
        checkSMTP w domain mxRecords hmx email = (false, false)) ∧
    (∀ code c4, SendRecpt w c3 ("RCPT TO:<" ++ email ++ ">") = ((code, false), c4) →
        code ≠ 250 → ¬ (500 ≤ code ∧ code ≤ 599) →
        checkSMTP w domain mxRecords hmx email = (false, true)) ∧
    (∀ cmd c, w.Write c3 (cmd ++ "\r\n") = (true, c) →
        SendRecpt w c3 cmd = ((0, true), c)) ∧
    (∀ cmd c c4, w.Write c3 (cmd ++ "\r\n") = (false, c) → w.ReadLine c = (none, c4) →
        SendRecpt w c3 cmd = ((0, true), c4)) ∧
    (∀ cmd c line c4, w.Write c3 (cmd ++ "\r\n") = (false, c) →
        w.ReadLine c = (some line, c4) →
        SendRecpt w c3 cmd = (((w.Sscanf line).getD 0, false), c4)) := by
  have hred := checkSMTP_reached w domain mxRecords hmx email conn c1 c2 c3 greeting
    hdial hgreet hhello hmail
  refine ⟨?_, ?_, ?_, ?_, ?_, ?_, ?_, ?_⟩
  · intro code c4 hr
    rw [hred, hr]
    rfl
  · intro c4 hr h2
    rw [hred, hr]
    simp only [Bool.false_eq_true, if_false, if_true, (isCatchAll_eq w c4 domain).mpr h2]
  · intro c4 hr h2
    have hc : ¬ isCatchAll w c4 domain = true := fun e => h2 ((isCatchAll_eq w c4 domain).mp e)
    rw [hred, hr]
    simp only [Bool.false_eq_true, if_false, if_true, hc]
  · intro code c4 hr h5 h6
    have h250 : ¬ code = 250 := by omega
    have hrange : code ≥ 500 ∧ code < 600 := ⟨h5, by omega⟩
    rw [hred, hr]
    simp only [Bool.false_eq_true, if_false, h250, hrange, and_self, if_true]
  · intro code c4 hr h250 hn
    have hrange : ¬ (code ≥ 500 ∧ code < 600) := by
      intro h
      exact hn ⟨h.1, by omega⟩
    rw [hred, hr]
    simp only [Bool.false_eq_true, if_false, h250, hrange]
  · intro cmd c hw
    unfold SendRecpt
    simp only [hw]
  · intro cmd c c4 hw hr
    unfold SendRecpt
    simp only [hw, hr]
  · intro cmd c line c4 hw hr
    unfold SendRecpt
    simp only [hw, hr]
    cases w.Sscanf line <;> rfl

/-- The hypotheses of C6 hold for the accepting peer: the recipient gets 250, the
random recipient 550, and the probe returns (true, false). -/
theorem probe_rcpt_outcome_witness :
    checkSMTP (sampleWorld sampleMX false (some acceptingScript)) "b.com" sampleMX
      (by decide) "a@b.com" = (true, false) :=
  (probe_rcpt_outcome (sampleWorld sampleMX false (some acceptingScript)) "b.com" sampleMX
    (by decide) "a@b.com" acceptingScript (acceptingScript.drop 1) (acceptingScript.drop 2)
    (acceptingScript.drop 3) "220 mx.example.net ESMTP" rfl (by decide) (Or.inl rfl) rfl).2.2.1
    (acceptingScript.drop 4) (by decide) (by decide)

/-- C9 fails on the code: `ReadCodeLine(220)` never looks at the code of the
opening line.  A peer whose opening line is `554 ...` and which then answers
the commands is probed to (true, false), and the address is classified
DELIVERABLE/0.9 in LIVE mode. -/
theorem greeting_code_not_checked :
    checkSMTP (sampleWorld sampleMX false (some refusingGreetingScript)) "b.com" sampleMX
        (by decide) "a@b.com" = (true, false) ∧
      (Verify (sampleConfig "LIVE") (sampleWorld sampleMX false (some refusingGreetingScript))
        "a@b.com").Deliverability = Deliverable ∧
      (Verify (sampleConfig "LIVE") (sampleWorld sampleMX false (some refusingGreetingScript))
        "a@b.com").QualityScore = 0.9 :=
  ⟨by decide, by decide, rfl⟩

/-- C10: a string accepted by the syntax pattern contains exactly one `@`, so
`Split` yields exactly two parts, and its result has `is_valid_format = true`
and the text after the `@` as provider, in every mode and world. -/
theorem verify_valid_provider {σ : Type} (cfg : Config) (w : World σ) (email : String)
    (h : Regex.MatchString emailRegex email = true) :
    email.data.count '@' = 1 ∧ (Split email '@').length = 2 ∧
      (Verify cfg w email).IsValidFormat = true ∧
      (Verify cfg w email).Provider = domainPart email := by
  obtain ⟨l, _, hcount, hsplit⟩ := valid_split email h
  refine ⟨hcount, by rw [hsplit]; rfl, ?_⟩
  unfold Verify mockVerify
  simp only [h, hsplit, Bool.not_true, Bool.false_eq_true, if_false]
  constructor <;> (repeat' split) <;> rfl

/-- The hypothesis of C10 holds at "a@b.com". -/
theorem verify_valid_provider_witness :
    Regex.MatchString emailRegex "a@b.com" = true ∧
      "a@b.com".data.count '@' = 1 ∧ (Split "a@b.com" '@').length = 2 ∧
      (Verify (sampleConfig "LIVE") (sampleWorld sampleMX false none) "a@b.com").IsValidFormat
        = true ∧
      (Verify (sampleConfig "LIVE") (sampleWorld sampleMX false none) "a@b.com").Provider
        = domainPart "a@b.com" :=
  ⟨by decide, verify_valid_provider _ _ _ (by decide)⟩

end Mailnull
